import Mathlib

/-!
A shallow embedding of the Scan execution core of this repository:
the `LirScan` driver (`src/core/src/ops/scan/lir.rs`), its mapping data
model (`src/core/src/ops/scan/mod.rs`) and the ONNX Loop parser adapter
(`src/onnx/src/ops/loop_.rs`).

Tensors are modelled as a shape together with a total valuation of
multi-indices; uninitialized allocation is the constant `.uninit`
valuation, so that the driver's "leave as allocated" behaviour is
observable.  Machine integers are modelled as `Nat`/`Int`; the `usize`
subtractions of the source are `Nat` subtractions (the concrete runs the
theorems evaluate never underflow).  The unbounded `for i in 0..` loop of
`State::eval` is modelled with an explicit fuel parameter; exhausting the
fuel yields the distinguished error `Err.noFuel`, which stands for a
non-terminating run.
-/

namespace Spec2

/-- A scalar datum: the embedding needs integers (TDim / i64 values),
booleans (loop conditions) and the "uninitialized memory" marker produced
by `Tensor::uninitialized_dt`. -/
inductive Val where
  | int : Int → Val
  | bool : Bool → Val
  | uninit : Val
deriving DecidableEq

/-- An N-dimensional tensor: a shape and a valuation of multi-indices.
Indices outside the shape are irrelevant to the theorems; the valuation is
total to keep the model simple. -/
structure Tensor where
  shape : List Nat
  data : List Nat → Val

/-- `Tensor::uninitialized_dt`: a fresh tensor of the given shape whose
every cell is uninitialized. -/
def Tensor.uninit (shape : List Nat) : Tensor :=
  { shape := shape, data := fun _ => .uninit }

/-- Modelled from the spec: `Tensor::default()` (from the external tensor
crate) is the empty placeholder tensor that `eval` allocates for
last-value outputs before the loop runs. -/
def Tensor.default : Tensor :=
  { shape := [0], data := fun _ => .uninit }

/-- A rank-0 integer tensor, as built by `tensor0(i.to_dim())`. -/
def tensor0Int (i : Int) : Tensor :=
  { shape := [], data := fun _ => .int i }

/-- A rank-0 boolean tensor. -/
def tensor0Bool (b : Bool) : Tensor :=
  { shape := [], data := fun _ => .bool b }

/-- `to_scalar::<TDim>()` followed by `as_i64()`: succeeds exactly on a
rank-0 tensor holding an integer. -/
def Tensor.toScalarInt (t : Tensor) : Option Int :=
  if t.shape = [] then
    match t.data [] with
    | .int i => some i
    | _ => none
  else none

/-- `to_scalar::<bool>()`: succeeds exactly on a rank-0 boolean tensor. -/
def Tensor.toScalarBool (t : Tensor) : Option Bool :=
  if t.shape = [] then
    match t.data [] with
    | .bool b => some b
    | _ => none
  else none

/-- `assign_slice_unchecked(dstStart..dstStart+count, src, srcStart.., axis)`:
copy `count` contiguous hyper-slabs along `axis` from `src` into `dst`,
leaving every other cell of `dst` unchanged. -/
def Tensor.assignSlice (dst : Tensor) (axis dstStart count : Nat)
    (src : Tensor) (srcStart : Nat) : Tensor :=
  { dst with
    data := fun ix =>
      if dstStart ≤ ix.getD axis 0 ∧ ix.getD axis 0 < dstStart + count then
        src.data (ix.set axis (srcStart + (ix.getD axis 0 - dstStart)))
      else dst.data ix }

/-- `usize::divceil` as used on shapes: ceiling division. -/
def divceilNat (a b : Nat) : Nat := (a + b - 1) / b

/-- `ExitCondition` (src/core/src/ops/scan/mod.rs). -/
structure ExitCondition where
  condition_from_state : Option Nat := none
  trip_count_from_input : Option Nat := none
deriving DecidableEq

/-- `ScanInfo` (src/core/src/ops/scan/mod.rs). -/
structure ScanInfo where
  slot : Nat
  axis : Nat
  chunk : Int
deriving DecidableEq

/-- `StateInitializer` (src/core/src/ops/scan/mod.rs). -/
inductive StateInitializer where
  | fromInput : Nat → StateInitializer
  | value : Tensor → StateInitializer

/-- `InputMapping` (src/core/src/ops/scan/mod.rs). -/
inductive InputMapping where
  | full : Nat → InputMapping
  | state : StateInitializer → InputMapping
  | scan : ScanInfo → InputMapping
  | iterIndex : InputMapping

/-- `InputMapping::as_scan`. -/
def InputMapping.asScan : InputMapping → Option ScanInfo
  | .scan s => some s
  | _ => none

/-- `OutputMapping` (src/core/src/ops/scan/mod.rs); the `TDim` parameter
of `full_dim_hint` is modelled as `Int`. -/
structure OutputMapping where
  scan : Option ScanInfo := none
  last_value_slot : Option Nat := none
  state : Bool := false
  full_dim_hint : Option Int := none

/-- The compiled body plan: its output facts (shapes, with the session's
symbols already resolved to concrete sizes) and the executor.  The nested
executor of the source (`TypedSimpleState`) is stateless across
iterations apart from what the driver feeds it, so it is modelled as a
pure function from body inputs to body outputs. -/
structure TypedPlan where
  outputShapes : List (List Nat)
  run : List Tensor → Except String (List Tensor)

/-- `LirScanOpParams` (src/core/src/ops/scan/lir.rs). -/
structure LirScanOpParams where
  skip : Nat
  plan : TypedPlan
  input_mapping : List InputMapping
  output_mapping : List OutputMapping
  exit_condition : ExitCondition

/-- The error taxonomy surfaced by the driver; constructors follow the
`context` strings of the source.  `panicked` models a Rust panic
(`unwrap` on `None`), `noFuel` models a non-terminating loop. -/
inductive Err where
  | badTripCount : String → Err
  | badCondition : String → Err
  | bodyFailure : String → Err
  | ensureFailed : String → Err
  | panicked : String → Err
  | noFuel : Err
deriving DecidableEq

/-- `State::slice_input` (src/core/src/ops/scan/lir.rs lines 127-160). -/
def sliceInput (input : Tensor) (axis : Nat) (chunkIx : Nat) (chunkDim : Int) : Tensor :=
  let fullLen := input.shape.getD axis 0
  let t0 := Tensor.uninit (input.shape.set axis chunkDim.natAbs)
  if chunkDim < 0 then
    let cd := chunkDim.natAbs
    (List.range cd).foldl
      (fun t j =>
        if cd * chunkIx + j < fullLen then
          t.assignSlice axis (cd - j - 1) 1 input (fullLen - 1 - (chunkIx * cd + j))
        else t)
      t0
  else if fullLen < (chunkIx + 1) * chunkDim.natAbs then
    let cd := chunkDim.natAbs
    let remain := fullLen - chunkIx * cd
    t0.assignSlice axis 0 remain input (chunkIx * cd)
  else
    t0.assignSlice axis 0 chunkDim.natAbs input (chunkDim.natAbs * chunkIx)

/-- `State::assign_output` (src/core/src/ops/scan/lir.rs lines 162-179). -/
def assignOutput (output : Tensor) (axis : Nat) (element_value : Tensor)
    (i : Nat) (backward : Bool) : Tensor :=
  let full_len := output.shape.getD axis 0
  let offset := if backward then full_len - 1 - i * (element_value.shape.getD axis 0)
                else i * (element_value.shape.getD axis 0)
  let count := min (element_value.shape.getD axis 0) (output.shape.getD axis 0 - offset)
  output.assignSlice axis offset count element_value 0

/-- The driver state (`struct State`, src/core/src/ops/scan/lir.rs).
`model_state` owns the executor over the shared plan. -/
structure State where
  op : LirScanOpParams
  position : Nat
  hidden_state : List Tensor
  model_state : TypedPlan

/-- The frozen driver state (`struct FrozenState`): the hidden state held
by value as tensors. -/
structure FrozenState where
  op : LirScanOpParams
  position : Nat
  hidden_state : List Tensor
  model_state : TypedPlan

/-- `TValue::into_tensor` after a clone: conversion between the shared
and the owned tensor handle preserves the value bitwise. -/
def tvalueIntoTensor (t : Tensor) : Tensor := t

/-- `Tensor::into_tvalue`: the reverse conversion, also value-preserving. -/
def tensorIntoTvalue (t : Tensor) : Tensor := t

/-- Modelled from the spec: freezing the nested body executor
(`TypedSimpleState::freeze`, external to src/) produces a snapshot whose
`unfreeze` restores identical future behaviour (design §4.4); on the pure
model of the executor both directions are the identity. -/
def TypedPlan.freezeExec (p : TypedPlan) : TypedPlan := p

/-- Modelled from the spec: see `TypedPlan.freezeExec`. -/
def TypedPlan.unfreezeExec (p : TypedPlan) : TypedPlan := p

/-- `OpStateFreeze for State` (src/core/src/ops/scan/lir.rs lines 104-113). -/
def State.freeze (s : State) : FrozenState :=
  { op := s.op
    position := s.position
    hidden_state := s.hidden_state.map tvalueIntoTensor
    model_state := s.model_state.freezeExec }

/-- `FrozenOpState for FrozenState` (src/core/src/ops/scan/lir.rs lines 115-124). -/
def FrozenState.unfreeze (f : FrozenState) : State :=
  { op := f.op
    position := f.position
    hidden_state := f.hidden_state.map tensorIntoTvalue
    model_state := f.model_state.unfreezeExec }

/-- First-eval hidden-state initialization (src/core/src/ops/scan/lir.rs
lines 190-200): when the hidden state is empty, push one entry per
`State` input mapping, in mapping order. -/
def initHiddenState (op : LirScanOpParams) (inputs : List Tensor)
    (hidden : List Tensor) : List Tensor :=
  if hidden.length = 0 then
    op.input_mapping.filterMap fun m =>
      match m with
      | .state (.fromInput slot) => some (inputs.getD slot Tensor.default)
      | .state (.value v) => some v
      | _ => none
  else hidden

/-- The iteration bound of one `eval` call (src/core/src/ops/scan/lir.rs
lines 202-224): the first `Scan` input mapping gives
`divceil(shape[axis], |chunk|)`; a `trip_count_from_input` then overrides
it with the parsed scalar (the source writes the override to the `iters`
binding), failing on a non-scalar, non-integer or negative value. -/
def computeIters (op : LirScanOpParams) (inputs : List Tensor) :
    Except Err (Option Nat) :=
  let itersScan : Option Nat :=
    (op.input_mapping.findSome? InputMapping.asScan).map fun info =>
      divceilNat ((inputs.getD info.slot Tensor.default).shape.getD info.axis 0)
        info.chunk.natAbs
  match op.exit_condition.trip_count_from_input with
  | none => .ok itersScan
  | some e =>
    match (inputs.getD e Tensor.default).toScalarInt with
    | none => .error (.badTripCount "Trip count is not a scalar TDim")
    | some tc =>
      if tc < 0 then .error (.badTripCount "is not a valid trip count")
      else .ok (some tc.toNat)

/-- Stable insertion into a slot-sorted association list: a new pair goes
before the first pair of an equal or larger slot, as Rust's stable
`sort_by_key` orders them. -/
def insertBySlot {α : Type} (p : Nat × α) : List (Nat × α) → List (Nat × α)
  | [] => [p]
  | q :: qs => if q.1 < p.1 then q :: insertBySlot p qs else p :: q :: qs

/-- Stable sort by slot (`outputs.sort_by_key(|a| a.0)`). -/
def sortBySlot {α : Type} : List (Nat × α) → List (Nat × α)
  | [] => []
  | p :: ps => insertBySlot p (sortBySlot ps)

/-- Output allocation before the loop (src/core/src/ops/scan/lir.rs
lines 230-250): scan outputs get an uninitialized accumulator sized from
the body's output fact (the scanning axis replaced by the resolved
`full_dim_hint`, else `shape[axis] * iters` — the source multiplies by
the optional `iters`, modelled as its value when known and 0 otherwise);
last-value outputs get the default placeholder.  Pairs are then
stable-sorted by slot. -/
def allocOutputs (op : LirScanOpParams) (iters : Option Nat) : List Tensor :=
  let pairs := (op.output_mapping.enum).foldl
    (fun (acc : List (Nat × Tensor)) p =>
      let ix := p.1
      let output := p.2
      let acc := match output.scan with
        | some info =>
          let shape0 := op.plan.outputShapes.getD ix []
          let scanningDim :=
            (output.full_dim_hint.bind fun d =>
              if 0 ≤ d then some d.toNat else none).getD
              (shape0.getD info.axis 0 * iters.getD 0)
          acc ++ [(info.slot, Tensor.uninit (shape0.set info.axis scanningDim))]
        | none => acc
      match output.last_value_slot with
      | some slot => acc ++ [(slot, Tensor.default)]
      | none => acc)
    []
  (sortBySlot pairs).map fun p => p.2

/-- What one pass of the `for i in 0..` loop does before the body runs
(src/core/src/ops/scan/lir.rs lines 252-274): bump `position` and skip
while `position ≤ skip`, break when the iteration bound equals the loop
index, break when the referenced hidden-state boolean is true. -/
inductive StepDecision where
  | skipStep | breakLoop | runBody
deriving DecidableEq

/-- See `StepDecision`; `position` is the value before this pass bumps it. -/
def stepDecision (op : LirScanOpParams) (iters : Option Nat)
    (position i : Nat) (hidden : List Tensor) : Except Err StepDecision :=
  if position + 1 ≤ op.skip then .ok .skipStep
  else if iters = some i then .ok .breakLoop
  else
    match op.exit_condition.condition_from_state with
    | none => .ok .runBody
    | some idx =>
      match (hidden.getD idx Tensor.default).toScalarBool with
      | none => .error (.badCondition "Loop exit condition is not a scalar boolean")
      | some true => .ok .breakLoop
      | some false => .ok .runBody

/-- Body-input preparation (src/core/src/ops/scan/lir.rs lines 276-297):
the source reverses the hidden-state vector and pops from its back, so
`State` mappings consume `pending` front-first; the unconsumed remainder
is returned (it is left reversed in the source's vector).  `Scan`
mappings slice, `Full` mappings clone the outer input, `IterIndex` feeds
the loop index as a rank-0 tensor. -/
def prepareInputs (inputs : List Tensor) (i : Nat) :
    List InputMapping → List Tensor → List Tensor × List Tensor
  | [], pending => ([], pending)
  | m :: ms, pending =>
    match m with
    | .state _ =>
      let r := prepareInputs inputs i ms pending.tail
      (pending.headD Tensor.default :: r.1, r.2)
    | .scan info =>
      let r := prepareInputs inputs i ms pending
      (sliceInput (inputs.getD info.slot Tensor.default) info.axis i info.chunk :: r.1, r.2)
    | .full slot =>
      let r := prepareInputs inputs i ms pending
      (inputs.getD slot Tensor.default :: r.1, r.2)
    | .iterIndex =>
      let r := prepareInputs inputs i ms pending
      (tensor0Int (Int.ofNat i) :: r.1, r.2)

/-- Distribution of one body output (src/core/src/ops/scan/lir.rs lines
308-321): a scan mapping assigns the chunk into the accumulator at its
slot (backward when `chunk < 0`); a last-value mapping stores the output
at its slot during the final iteration — the source compares the loop
index with the known bound (`i == iters - 1` on the optional `iters`,
i.e. `iters = some (i + 1)`); a state mapping pushes the output onto the
hidden state. -/
def applyOutputMapping (iters : Option Nat) (i : Nat) (v : Tensor)
    (mapping : OutputMapping) (acc : List Tensor × List Tensor) :
    List Tensor × List Tensor :=
  let outs := acc.1
  let outs := match mapping.scan with
    | some info =>
      outs.set info.slot
        (assignOutput (outs.getD info.slot Tensor.default) info.axis v i
          (decide (info.chunk < 0)))
    | none => outs
  let outs :=
    if iters = some (i + 1) then
      match mapping.last_value_slot with
      | some slot => outs.set slot v
      | none => outs
    else outs
  (outs, if mapping.state then acc.2 ++ [v] else acc.2)

/-- Distribution of all body outputs of one iteration, zipped with the
output mappings; returns the updated accumulators and the hidden-state
entries pushed in mapping order. -/
def distributeOutputs (iters : Option Nat) (i : Nat) (vs : List Tensor)
    (mappings : List OutputMapping) (outputs : List Tensor) :
    List Tensor × List Tensor :=
  (vs.zip mappings).foldl
    (fun acc p => applyOutputMapping iters i p.1 p.2 acc) (outputs, [])

/-- The mutable data of the `for i in 0..` loop, plus the list of loop
indices whose pass executed the body (instrumentation for the theorems;
the driver itself does not record it). -/
structure LoopState where
  position : Nat
  hidden : List Tensor
  outputs : List Tensor
  trace : List Nat

/-- The `for i in 0..` loop of `State::eval` (src/core/src/ops/scan/lir.rs
lines 252-322).  A `continue` in a Rust `for` loop advances the loop
index, so a skipped pass consumes a value of `i`.  `fuel` bounds the
number of passes; running out models a non-terminating loop. -/
def evalLoop (op : LirScanOpParams) (inputs : List Tensor)
    (iters : Option Nat) : Nat → Nat → LoopState → Except Err LoopState
  | 0, _, _ => .error .noFuel
  | fuel + 1, i, st =>
    match stepDecision op iters st.position i st.hidden with
    | .error e => .error e
    | .ok .skipStep =>
      evalLoop op inputs iters fuel (i + 1) { st with position := st.position + 1 }
    | .ok .breakLoop => .ok { st with position := st.position + 1 }
    | .ok .runBody =>
      let pi := prepareInputs inputs i op.input_mapping st.hidden
      match op.plan.run pi.1 with
      | .error e => .error (.bodyFailure e)
      | .ok iterOutputs =>
        let dist := distributeOutputs iters i iterOutputs op.output_mapping st.outputs
        evalLoop op inputs iters fuel (i + 1)
          { position := st.position + 1
            hidden := pi.2.reverse ++ dist.2
            outputs := dist.1
            trace := st.trace ++ [i] }

/-- `OpState::eval for State` (src/core/src/ops/scan/lir.rs lines
182-325): initialize the hidden state on first use, compute the
iteration bound, allocate outputs, run the loop, and return the final
outputs.  The result also carries the updated driver state and the
instrumentation trace of executed loop indices. -/
def State.eval (fuel : Nat) (s : State) (inputs : List Tensor) :
    Except Err (State × List Tensor × List Nat) :=
  let hidden0 := initHiddenState s.op inputs s.hidden_state
  match computeIters s.op inputs with
  | .error e => .error e
  | .ok iters =>
    match evalLoop s.op inputs iters fuel 0
        { position := s.position, hidden := hidden0,
          outputs := allocOutputs s.op iters, trace := [] } with
    | .error e => .error e
    | .ok st =>
      .ok ({ s with position := st.position, hidden_state := st.hidden },
        st.outputs, st.trace)

/-- A compile-time tensor fact (`TypedFact`): a shape over the dimension
algebra (symbolic dimensions modelled as concrete integers) and an
optional constant value. -/
structure TypedFact where
  shape : List Int
  konst : Option Tensor := none

/-- The fact used when a slot index is out of range. -/
def TypedFact.unknown : TypedFact := { shape := [], konst := none }

/-- `LirScan::iteration_count` (src/core/src/ops/scan/lir.rs lines
27-47): a constant trip-count input wins and is parsed as a scalar
dimension; otherwise the first `Scan` input mapping gives
`outside_dim / chunk` — plain division by the signed chunk. -/
def iteration_count (op : LirScanOpParams) (inputs : List TypedFact) :
    Except Err (Option Int) :=
  match op.exit_condition.trip_count_from_input.bind
      (fun e => (inputs.getD e TypedFact.unknown).konst) with
  | some t =>
    match t.toScalarInt with
    | none => .error (.badTripCount "Trip count is not a scalar")
    | some v => .ok (some v)
  | none =>
    .ok ((op.input_mapping.findSome? InputMapping.asScan).map fun info =>
      (inputs.getD info.slot TypedFact.unknown).shape.getD info.axis 0 / info.chunk)

/-- Ceiling division in the dimension algebra (`TDim::div_ceil` by a
positive integer), on the concrete model of dimensions. -/
def divceilDim (d : Int) (b : Nat) : Int := (d + b - 1) / b

/-- The compile-time iteration count of `LirScan::output_facts`
(src/core/src/ops/scan/lir.rs lines 333-336): the first `Scan` entry of
the input mapping is unwrapped — on an op with no `Scan` entry the
source panics (`Option::unwrap` on `None`). -/
def outputFactsIters (op : LirScanOpParams) (inputs : List TypedFact) :
    Except Err Int :=
  match op.input_mapping.findSome? InputMapping.asScan with
  | none => .error (.panicked "called Option::unwrap on a None value")
  | some info =>
    .ok (divceilDim ((inputs.getD info.slot TypedFact.unknown).shape.getD info.axis 0)
      info.chunk.natAbs)

/-- `LirScan::output_facts` (src/core/src/ops/scan/lir.rs lines
331-353): last-value outputs copy the body's output fact; scan outputs
replace the scanning axis by `full_dim_hint` or `shape[axis] * iters`;
the pairs are stable-sorted by slot. -/
def output_facts (op : LirScanOpParams) (inputs : List TypedFact) :
    Except Err (List TypedFact) :=
  match outputFactsIters op inputs with
  | .error e => .error e
  | .ok iters =>
    let pairs := (op.output_mapping.enum).foldl
      (fun (acc : List (Nat × TypedFact)) p =>
        let ix := p.1
        let output := p.2
        let factShape : List Int := (op.plan.outputShapes.getD ix []).map Int.ofNat
        let acc := match output.last_value_slot with
          | some slot => acc ++ [(slot, { shape := factShape })]
          | none => acc
        match output.scan with
        | some info =>
          let scanningDim := output.full_dim_hint.getD (factShape.getD info.axis 0 * iters)
          acc ++ [(info.slot, { shape := factShape.set info.axis scanningDim })]
        | none => acc)
      []
    .ok ((sortBySlot pairs).map fun p => p.2)

/-- The runtime's datum types, as far as the Loop parser needs them. -/
inductive DatumType where
  | i64 | tdim | other
deriving DecidableEq

/-- Modelled from the spec: an ONNX Loop node as the parser sees it after
`parse_graph` and `optional_inputs` (both external to src/).  The
trip-count and condition inputs are both present (the parser ensures it)
and occupy outer slots 0 and 1; `numStates` loop-carried initial values
follow in slots 2 and up; `bodyInputCount` and `bodyOutputCount` are the
body graph's arities; `numUnresolved` counts outer values captured by the
body that the graph parser appends as extra inputs. -/
structure LoopNode where
  numStates : Nat
  bodyInputCount : Nat
  bodyOutputCount : Nat
  numUnresolved : Nat

/-- The parser's result: the mapping tuple plus the datum type the body's
first (iteration-index) input is cast to — modelled from the spec for the
`InferenceModelPatch::intercept` call, which is external to src/. -/
structure ParsedLoop where
  input_mapping : List InputMapping
  output_mapping : List OutputMapping
  exit_condition : ExitCondition
  iterIndexCastTo : Option DatumType

/-- `loop_` (src/onnx/src/ops/loop_.rs): build the mapping tuple for a
Loop node.  The outer-input index bookkeeping of the source reduces to:
condition initializer from slot 1, loop-carried state k from slot 2 + k,
captured value k from slot 2 + numStates + k.  Output slots: state k
last-value at k, then scan outputs at numStates + j (axis 0, chunk 1) for
the remaining body outputs.  The exit condition reads the trip count from
outer slot 0 and the condition from state index 0. -/
def loopParse (node : LoopNode) : Except Err ParsedLoop :=
  let mappedInputs : List InputMapping :=
    [.iterIndex, .state (.fromInput 1)]
      ++ ((List.range node.numStates).map fun k => .state (.fromInput (2 + k)))
      ++ ((List.range node.numUnresolved).map fun k => .full (2 + node.numStates + k))
  let stateOutputs : List OutputMapping :=
    [{ state := true }]
      ++ ((List.range node.numStates).map fun k =>
        { state := true, last_value_slot := some k })
  let mappedOutputs : List OutputMapping :=
    stateOutputs
      ++ ((List.range (node.bodyOutputCount - stateOutputs.length)).map fun j =>
        { scan := some { slot := node.numStates + j, axis := 0, chunk := 1 } })
  if mappedInputs.length ≠ node.bodyInputCount then
    .error (.ensureFailed "Loop has unmatched number of inputs and subgraph inputs")
  else if mappedOutputs.length ≠ node.bodyOutputCount then
    .error (.ensureFailed "Loop has unmatched number of outputs and subgraph outputs")
  else
    .ok { input_mapping := mappedInputs
          output_mapping := mappedOutputs
          exit_condition :=
            { condition_from_state := some 0, trip_count_from_input := some 0 }
          iterIndexCastTo := some .i64 }

/-! ## Concrete drivers used by the theorems -/

/-- A body plan that returns its second input (the hidden state)
unchanged: the identity state body of scenario S5. -/
def plan1 : TypedPlan :=
  { outputShapes := [[]]
    run := fun ins => .ok [ins.getD 1 Tensor.default] }

/-- Scenario S5's driver: `skip = 2`, trip count from input 0, an
iteration index and one hidden state from input 1, the state fed back and
exposed as last value at outer slot 0. -/
def op1 : LirScanOpParams :=
  { skip := 2
    plan := plan1
    input_mapping := [.iterIndex, .state (.fromInput 1)]
    output_mapping := [{ state := true, last_value_slot := some 0 }]
    exit_condition := { condition_from_state := none, trip_count_from_input := some 0 } }

/-- A fresh driver state over `op1`, as `EvalOp::state` builds it. -/
def s1 : State := { op := op1, position := 0, hidden_state := [], model_state := op1.plan }

/-- Scenario S5's outer inputs: trip count 5, initial state 10. -/
def c1inputs : List Tensor := [tensor0Int 5, tensor0Int 10]

/-- The loop indices of the executed body calls in scenario S5. -/
def c1trace : List Nat :=
  match State.eval 10 s1 c1inputs with
  | .ok (_, _, tr) => tr
  | .error _ => []

/-- The scalar held by scenario S5's last-value output. -/
def c1lastValue : Val :=
  match State.eval 10 s1 c1inputs with
  | .ok (_, outs, _) => (outs.getD 0 Tensor.default).data []
  | .error _ => .uninit

/-- A pass-through body plan with one output of shape `[2]`
(scenario S3). -/
def plan2 : TypedPlan := { outputShapes := [[2]], run := fun ins => .ok ins }

/-- Scenario S3's driver: one scan input (axis 0, chunk -2), the body
output accumulated on axis 0 with chunk -2. -/
def op2 : LirScanOpParams :=
  { skip := 0
    plan := plan2
    input_mapping := [.scan { slot := 0, axis := 0, chunk := -2 }]
    output_mapping := [{ scan := some { slot := 0, axis := 0, chunk := -2 } }]
    exit_condition := {} }

/-- A fresh driver state over `op2`. -/
def s2 : State := { op := op2, position := 0, hidden_state := [], model_state := op2.plan }

/-- Scenario S3's scan input `[1, 2, 3, 4, 5]`. -/
def c2input : Tensor := { shape := [5], data := fun ix => .int (ix.getD 0 0 + 1) }

/-- Scenario S3's accumulator after `eval`. -/
def c2acc : Tensor :=
  match State.eval 10 s2 [c2input] with
  | .ok (_, outs, _) => outs.getD 0 Tensor.default
  | .error _ => Tensor.default

/-- The loop indices of the executed body calls in scenario S3. -/
def c2trace : List Nat :=
  match State.eval 10 s2 [c2input] with
  | .ok (_, _, tr) => tr
  | .error _ => []

/-! ## C1 -/

/-- C1: the claim says the three executed body calls of the skip = 2,
trip-count 5 run carry iteration indices 0, 1 and 2.  They do not: a
`continue` in a Rust `for i in 0..` loop advances `i`, so the two skipped
passes consume indices 0 and 1 and the executed calls carry 2, 3 and 4. -/
theorem c1_skip_counterexample :
    c1trace = [2, 3, 4] ∧ c1trace ≠ [0, 1, 2] := by
  constructor
  · decide
  · decide

/-- C1 (amended): with skip = 2, a trip count input of 5 and the identity
state body, `eval` executes the body exactly 3 times; the skipped passes
consume loop indices 0 and 1, so the executed calls carry iteration
indices 2, 3 and 4 (the first executed iteration feeds IterIndex 2), and
the last-value output equals the body output of the 3rd (final)
execution. -/
theorem c1_skip_amended :
    c1trace = [2, 3, 4] ∧ c1trace.length = 3 ∧ c1trace.headD 0 = 2 ∧
    c1lastValue = .int 10 := by
  refine ⟨by decide, by decide, by decide, by decide⟩

/-! ## C2 -/

/-- C2: the claim says the length-6 accumulator of the reverse chunk -2
scan over `[1,2,3,4,5]` holds `[_,1,2,3,4,5]` at positions 1..6.  It does
not: the backward offset `full - 1 - i*w` places the chunk of iteration 0
at offset 5 with a clamped count of 1, so position 5 receives 4 (the
element 5 is never copied) and position 1 receives the uninitialized head
of the ragged reverse slice. -/
theorem c2_reverse_ragged_counterexample :
    c2acc.data [5] = .int 4 ∧ c2acc.data [5] ≠ .int 5 ∧
    c2acc.data [1] = .uninit := by
  refine ⟨by decide, by decide, by decide⟩

/-- C2 (amended): the run makes 3 iterations whose reverse slices are
`[4,5]`, `[2,3]` and `[_,1]` (position 0 of the ragged slice stays
uninitialized); the backward Assign writes them at offsets 5, 3, 1 with
counts 1, 2, 2, so the length-6 accumulator ends as
`[_, _, 1, 2, 3, 4]`: positions 2..6 hold 1,2,3,4, position 1 holds the
slice's uninitialized element and the input element 5 is never copied. -/
theorem c2_reverse_ragged_amended :
    c2trace = [0, 1, 2] ∧ c2acc.shape = [6] ∧
    (List.range 6).map (fun j => c2acc.data [j]) =
      [.uninit, .uninit, .int 1, .int 2, .int 3, .int 4] := by
  refine ⟨by decide, by decide, by decide⟩

/-! ## C4 -/

/-- C4: freeze/unfreeze is a round-trip identity: the unfrozen driver is
the frozen one bitwise (position, hidden state tensors and executor
snapshot restored), so `eval` on it returns the same outputs and the two
drivers behave identically afterwards. -/
theorem c4_freeze_unfreeze_roundtrip (s : State) (fuel : Nat) (inputs : List Tensor) :
    (State.freeze s).unfreeze = s ∧
    State.eval fuel (State.freeze s).unfreeze inputs = State.eval fuel s inputs := by
  have hmap : ∀ l : List Tensor, (l.map tvalueIntoTensor).map tensorIntoTvalue = l := by
    intro l
    rw [show tvalueIntoTensor = (id : Tensor → Tensor) from rfl,
      show tensorIntoTvalue = (id : Tensor → Tensor) from rfl, List.map_id, List.map_id]
  have h : (State.freeze s).unfreeze = s := by
    cases s with
    | mk op position hidden model =>
      simp [State.freeze, FrozenState.unfreeze, TypedPlan.freezeExec,
        TypedPlan.unfreezeExec, hmap]
  exact ⟨h, by rw [h]⟩

/-! ## C5 -/

/-- The offset formula of the spec's Assign (§4.1):
`offset = backward ? full - 1 - i·w : i·w`. -/
def specOffset (A E : Tensor) (axis i : Nat) (backward : Bool) : Nat :=
  if backward then A.shape.getD axis 0 - 1 - i * E.shape.getD axis 0
  else i * E.shape.getD axis 0

/-- The count formula of the spec's Assign (§4.1):
`count = min(w, full - offset)`. -/
def specCount (A E : Tensor) (axis i : Nat) (backward : Bool) : Nat :=
  min (E.shape.getD axis 0) (A.shape.getD axis 0 - specOffset A E axis i backward)

/-- C5: `assign_output` computes the spec's offset and count, copies
`E[0..count]` along the axis into `A[offset..offset+count]`, and leaves
every other position of `A` unchanged.  The hypotheses keep the spec's
subtractions inside ℕ (the source would underflow a usize otherwise). -/
theorem c5_assign_output_spec (A E : Tensor) (axis i : Nat) (backward : Bool)
    (_hb : backward = true → i * E.shape.getD axis 0 < A.shape.getD axis 0)
    (_hf : backward = false → i * E.shape.getD axis 0 ≤ A.shape.getD axis 0) :
    (assignOutput A axis E i backward).shape = A.shape ∧
    ∀ ix : List Nat,
      (assignOutput A axis E i backward).data ix =
        if specOffset A E axis i backward ≤ ix.getD axis 0 ∧
            ix.getD axis 0 < specOffset A E axis i backward + specCount A E axis i backward then
          E.data (ix.set axis (ix.getD axis 0 - specOffset A E axis i backward))
        else A.data ix := by
  refine ⟨rfl, fun ix => ?_⟩
  simp [assignOutput, Tensor.assignSlice, specOffset, specCount]

/-- Witness for C5: a backward assignment of a width-2 chunk at iteration
1 into a length-6 accumulator lands at offset 3; position 4 receives the
chunk's element 1 and position 0 is untouched. -/
def c5A : Tensor := Tensor.uninit [6]

/-- Witness chunk for C5: `[10, 11]`. -/
def c5E : Tensor := { shape := [2], data := fun ix => .int (10 + ix.getD 0 0) }

/-- Witness for `c5_assign_output_spec` at `A = c5A`, `E = c5E`, axis 0,
iteration 1, backward. -/
theorem c5_assign_output_spec_witness :
    (assignOutput c5A 0 c5E 1 true).data [4] = .int 11 ∧
    (assignOutput c5A 0 c5E 1 true).data [0] = .uninit := by
  have h := c5_assign_output_spec c5A c5E 0 1 true (by intro _; decide) (by intro hx; cases hx)
  constructor
  · rw [h.2 [4]]; decide
  · rw [h.2 [0]]; decide

/-! ## C7 -/

/-- C7: with `trip_count_from_input` set, `eval` fails with a
BadTripCount-kind error when the designated input is not a rank-0
integer tensor or holds a negative value, and a non-negative scalar `v`
makes `v` the iteration bound with no error from trip-count parsing. -/
theorem c7_bad_trip_count (s : State) (sx : Nat)
    (hset : s.op.exit_condition.trip_count_from_input = some sx)
    (inputs : List Tensor) (fuel : Nat) :
    ((inputs.getD sx Tensor.default).toScalarInt = none →
      State.eval fuel s inputs = .error (.badTripCount "Trip count is not a scalar TDim")) ∧
    (∀ v : Int, (inputs.getD sx Tensor.default).toScalarInt = some v → v < 0 →
      State.eval fuel s inputs = .error (.badTripCount "is not a valid trip count")) ∧
    (∀ v : Int, (inputs.getD sx Tensor.default).toScalarInt = some v → 0 ≤ v →
      computeIters s.op inputs = .ok (some v.toNat)) := by
  refine ⟨?_, ?_, ?_⟩
  · intro hnone
    rw [List.getD_eq_getElem?_getD] at hnone
    simp [State.eval, computeIters, hset, hnone]
  · intro v hv hneg
    rw [List.getD_eq_getElem?_getD] at hv
    simp [State.eval, computeIters, hset, hv, hneg]
  · intro v hv hpos
    rw [List.getD_eq_getElem?_getD] at hv
    simp [computeIters, hset, hv, not_lt.mpr hpos]

/-- A trivial body plan used by trip-count-only drivers. -/
def plan7 : TypedPlan := { outputShapes := [], run := fun _ => .ok [] }

/-- A trip-count-only driver: the bound comes from input 0, no scan
entry, no condition. -/
def op7 : LirScanOpParams :=
  { skip := 0
    plan := plan7
    input_mapping := [.iterIndex]
    output_mapping := []
    exit_condition := { condition_from_state := none, trip_count_from_input := some 0 } }

/-- A fresh driver state over `op7`. -/
def s7 : State := { op := op7, position := 0, hidden_state := [], model_state := op7.plan }

/-- Witness for `c7_bad_trip_count`: a rank-1 trip count input errors, a
negative scalar errors, and the scalar 4 becomes the bound. -/
theorem c7_bad_trip_count_witness :
    State.eval 3 s7 [Tensor.uninit [2]] =
      .error (.badTripCount "Trip count is not a scalar TDim") ∧
    State.eval 3 s7 [tensor0Int (-1)] =
      .error (.badTripCount "is not a valid trip count") ∧
    computeIters op7 [tensor0Int 4] = .ok (some 4) := by
  refine ⟨?_, ?_, ?_⟩
  · exact (c7_bad_trip_count s7 0 rfl [Tensor.uninit [2]] 3).1 rfl
  · exact (c7_bad_trip_count s7 0 rfl [tensor0Int (-1)] 3).2.1 (-1) rfl (by decide)
  · exact (c7_bad_trip_count s7 0 rfl [tensor0Int 4] 3).2.2 4 rfl (by decide)

/-! ## C10 -/

/-- C10: `output_facts` unwraps the first `Scan` input mapping, so on
every op with no `Scan` entry it panics instead of returning an error. -/
theorem c10_output_facts_panics (op : LirScanOpParams) (inputs : List TypedFact)
    (h : ∀ m ∈ op.input_mapping, m.asScan = none) :
    output_facts op inputs = .error (.panicked "called Option::unwrap on a None value") := by
  have hfind : op.input_mapping.findSome? InputMapping.asScan = none :=
    List.findSome?_eq_none_iff.mpr h
  simp [output_facts, outputFactsIters, hfind]

/-- Witness for `c10_output_facts_panics`: the trip-count-and-condition
driver `op1` has no `Scan` input mapping (it is valid for `eval`, as the
C1 theorems show), yet `output_facts` panics on it. -/
theorem c10_output_facts_panics_witness :
    output_facts op1 [] = .error (.panicked "called Option::unwrap on a None value") := by
  refine c10_output_facts_panics op1 [] ?_
  intro m hm
  simp [op1] at hm
  rcases hm with h | h <;> subst h <;> rfl

/-! ## C3 -/

/-- C3: with both exits set, the trip count overrides any scan-derived
bound, and a loop pass (past the skip window) breaks before executing the
body exactly when the loop index equals the trip count or the referenced
hidden-state boolean is true — the body runs exactly when neither exit
fires (logical OR of stop conditions). -/
theorem c3_dual_exit (op : LirScanOpParams) (inputs : List Tensor) (sx idx : Nat)
    (n : Int)
    (hset : op.exit_condition =
      { condition_from_state := some idx, trip_count_from_input := some sx })
    (hval : (inputs.getD sx Tensor.default).toScalarInt = some n) (hn : 0 ≤ n) :
    computeIters op inputs = .ok (some n.toNat) ∧
    ∀ (position i : Nat) (hidden : List Tensor) (b : Bool),
      op.skip < position + 1 →
      (hidden.getD idx Tensor.default).toScalarBool = some b →
      (stepDecision op (some n.toNat) position i hidden = .ok .breakLoop ↔
        (i = n.toNat ∨ b = true)) ∧
      (stepDecision op (some n.toNat) position i hidden = .ok .runBody ↔
        (i ≠ n.toNat ∧ b = false)) := by
  constructor
  · rw [List.getD_eq_getElem?_getD] at hval
    simp [computeIters, hset, hval, not_lt.mpr hn]
  · intro position i hidden b hskip hcond
    rw [List.getD_eq_getElem?_getD] at hcond
    by_cases hni : i = n.toNat
    · subst hni
      simp [stepDecision, hset, not_le.mpr hskip, hcond]
    · have hne : some n.toNat ≠ some i := by
        intro hc
        exact hni (Option.some.inj hc).symm
      cases b <;>
        simp [stepDecision, hset, not_le.mpr hskip, hcond, hne, Ne.symm hni, hni]

/-- A driver with both exits: trip count from input 0, boolean condition
from hidden state 0 (initialized from input 1). -/
def op3 : LirScanOpParams :=
  { skip := 0
    plan := plan7
    input_mapping := [.state (.fromInput 1)]
    output_mapping := [{ state := true }]
    exit_condition := { condition_from_state := some 0, trip_count_from_input := some 0 } }

/-- Witness for `c3_dual_exit`: trip count 4, condition still false — the
bound overrides (no scan entry confuses it) and a pass at loop index 2
runs the body. -/
theorem c3_dual_exit_witness :
    computeIters op3 [tensor0Int 4, tensor0Bool false] = .ok (some 4) ∧
    stepDecision op3 (some 4) 5 2 [tensor0Bool false] = .ok .runBody := by
  have h := c3_dual_exit op3 [tensor0Int 4, tensor0Bool false] 0 0 4 rfl rfl (by decide)
  refine ⟨h.1, ?_⟩
  exact ((h.2 5 2 [tensor0Bool false] false (by decide) rfl).2).mpr ⟨by decide, rfl⟩

/-! ## C6 -/

/-- The compile-time fact of a length-5 scan input. -/
def c6fact : TypedFact := { shape := [5] }

/-- A compile-time driver with one scan input of chunk 2 on axis 0. -/
def op6 : LirScanOpParams :=
  { skip := 0
    plan := plan2
    input_mapping := [.scan { slot := 0, axis := 0, chunk := 2 }]
    output_mapping := [{ scan := some { slot := 0, axis := 0, chunk := 2 } }]
    exit_condition := {} }

/-- C6: the claim says `iteration_count` computes the same
`ceil(shape[axis] / |chunk|)` as `output_facts`.  It does not: on a
length-5 axis with chunk 2, `iteration_count` divides plainly (5 / 2 = 2)
while `output_facts` ceils (3). -/
theorem c6_iteration_count_counterexample :
    iteration_count op6 [c6fact] = .ok (some 2) ∧
    outputFactsIters op6 [c6fact] = .ok 3 ∧ (2 : Int) ≠ 3 := by
  refine ⟨rfl, rfl, by decide⟩

/-- C6 (amended): `output_facts` derives
`ceil(shape[axis] / |chunk|)` from the first Scan input mapping, while
`iteration_count` (absent a constant trip count) computes
`shape[axis] / chunk` with plain division by the signed chunk; the two
agree when the chunk is positive and divides the dimension exactly, and
differ on ragged or reverse scans. -/
theorem c6_iteration_count_amended (op : LirScanOpParams) (inputs : List TypedFact)
    (info : ScanInfo)
    (hk : op.exit_condition.trip_count_from_input.bind
      (fun e => (inputs.getD e TypedFact.unknown).konst) = none)
    (hfind : op.input_mapping.findSome? InputMapping.asScan = some info) :
    iteration_count op inputs =
      .ok (some ((inputs.getD info.slot TypedFact.unknown).shape.getD info.axis 0 /
        info.chunk)) ∧
    outputFactsIters op inputs =
      .ok (divceilDim
        ((inputs.getD info.slot TypedFact.unknown).shape.getD info.axis 0)
        info.chunk.natAbs) ∧
    (0 < info.chunk →
      info.chunk ∣ (inputs.getD info.slot TypedFact.unknown).shape.getD info.axis 0 →
      0 ≤ (inputs.getD info.slot TypedFact.unknown).shape.getD info.axis 0 →
      (inputs.getD info.slot TypedFact.unknown).shape.getD info.axis 0 / info.chunk =
        divceilDim ((inputs.getD info.slot TypedFact.unknown).shape.getD info.axis 0)
          info.chunk.natAbs) := by
  have hk2 := hk
  simp only [List.getD_eq_getElem?_getD] at hk2
  refine ⟨by simp [iteration_count, hk2, hfind], by simp [outputFactsIters, hfind], ?_⟩
  generalize (inputs.getD info.slot TypedFact.unknown).shape.getD info.axis 0 = d
  intro hc hdvd _hd
  obtain ⟨k, hk2⟩ := hdvd
  have habs : (info.chunk.natAbs : Int) = info.chunk := Int.natAbs_of_nonneg (le_of_lt hc)
  have hcne : info.chunk ≠ 0 := ne_of_gt hc
  subst hk2
  rw [Int.mul_ediv_cancel_left _ hcne]
  unfold divceilDim
  rw [habs]
  have harr : info.chunk * k + info.chunk - 1 = (info.chunk - 1) + info.chunk * k := by ring
  rw [harr, Int.add_mul_ediv_left _ _ hcne,
    Int.ediv_eq_zero_of_lt (by omega) (by omega), zero_add]

/-- The compile-time fact of a length-6 scan input (divides chunk 2
exactly). -/
def c6fact2 : TypedFact := { shape := [6] }

/-- Witness for `c6_iteration_count_amended` on an exact forward scan:
length 6, chunk 2 — both counts are 3. -/
theorem c6_iteration_count_amended_witness :
    iteration_count op6 [c6fact2] = .ok (some (6 / 2)) ∧
    outputFactsIters op6 [c6fact2] = .ok (divceilDim 6 2) ∧
    (6 : Int) / 2 = divceilDim 6 2 := by
  have h := c6_iteration_count_amended op6 [c6fact2] { slot := 0, axis := 0, chunk := 2 }
    rfl rfl
  exact ⟨h.1, h.2.1, h.2.2 (by decide) (by decide) (by decide)⟩

/-! ## C8 -/

/-- C8: for every Loop node the parser accepts, the emitted input
mappings are, in order, the iteration index, the condition state
(initialized from outer slot 1), one state per loop-carried value
(initialized from slots 2 and up), then one `Full` entry per unresolved
captured outer value; the exit condition reads the trip count from slot 0
and the condition from state 0, and the body's first input is patched
with a cast to the 64-bit integer datum type. -/
theorem c8_loop_parser_mappings (node : LoopNode) (p : ParsedLoop)
    (h : loopParse node = .ok p) :
    p.input_mapping =
      [.iterIndex, .state (.fromInput 1)]
        ++ ((List.range node.numStates).map fun k =>
          InputMapping.state (.fromInput (2 + k)))
        ++ ((List.range node.numUnresolved).map fun k =>
          InputMapping.full (2 + node.numStates + k)) ∧
    p.exit_condition =
      { condition_from_state := some 0, trip_count_from_input := some 0 } ∧
    p.iterIndexCastTo = some .i64 := by
  simp only [loopParse] at h
  split at h
  · cases h
  · split at h
    · cases h
    · rw [Except.ok.injEq] at h
      subst h
      exact ⟨rfl, rfl, rfl⟩

/-- A Loop node with one loop-carried value, one scan output and one
captured outer value; arities match, so the parser accepts it. -/
def node8 : LoopNode :=
  { numStates := 1, bodyInputCount := 4, bodyOutputCount := 3, numUnresolved := 1 }

/-- The mapping tuple `loopParse` emits for `node8`. -/
def parsed8 : ParsedLoop :=
  { input_mapping := [.iterIndex, .state (.fromInput 1), .state (.fromInput 2), .full 3]
    output_mapping :=
      [{ state := true }, { state := true, last_value_slot := some 0 },
        { scan := some { slot := 1, axis := 0, chunk := 1 } }]
    exit_condition := { condition_from_state := some 0, trip_count_from_input := some 0 }
    iterIndexCastTo := some .i64 }

/-- Witness for `c8_loop_parser_mappings` at `node8`. -/
theorem c8_loop_parser_mappings_witness :
    parsed8.input_mapping =
      [.iterIndex, .state (.fromInput 1), .state (.fromInput 2), .full 3] ∧
    parsed8.iterIndexCastTo = some .i64 := by
  have h := c8_loop_parser_mappings node8 parsed8 rfl
  refine ⟨?_, h.2.2⟩
  rw [h.1]
  rfl

/-! ## C9 -/

/-- Setting a list at one index leaves `getD` at another unchanged. -/
theorem getD_set_of_ne {α : Type} (l : List α) (k j : Nat) (v d : α) (h : k ≠ j) :
    (l.set k v).getD j d = l.getD j d := by
  rw [List.getD_eq_getElem?_getD, List.getD_eq_getElem?_getD, List.getElem?_set_ne h]

/-- Distributing one body output does not touch accumulator position
`slot` when the mapping's scan slot differs from it and the iteration is
not the known final one. -/
theorem applyOutputMapping_preserves (iters : Option Nat) (i slot : Nat) (v : Tensor)
    (mapping : OutputMapping) (acc : List Tensor × List Tensor)
    (hscan : ∀ info, mapping.scan = some info → info.slot ≠ slot)
    (hlast : iters ≠ some (i + 1)) :
    (applyOutputMapping iters i v mapping acc).1.getD slot Tensor.default =
      acc.1.getD slot Tensor.default := by
  unfold applyOutputMapping
  cases hs : mapping.scan with
  | none => simp [hs, hlast]
  | some info =>
    simp only [hs]
    rw [if_neg hlast]
    exact getD_set_of_ne _ _ _ _ _ (hscan info hs)

/-- Folding the per-output distribution over a list of (value, mapping)
pairs preserves accumulator position `slot` under the same side
conditions. -/
theorem foldl_applyOutputMapping_preserves (iters : Option Nat) (i slot : Nat)
    (l : List (Tensor × OutputMapping)) (acc : List Tensor × List Tensor)
    (hscan : ∀ p ∈ l, ∀ info, p.2.scan = some info → info.slot ≠ slot)
    (hlast : iters ≠ some (i + 1)) :
    (l.foldl (fun acc p => applyOutputMapping iters i p.1 p.2 acc) acc).1.getD
      slot Tensor.default = acc.1.getD slot Tensor.default := by
  induction l generalizing acc with
  | nil => rfl
  | cons hd tl ih =>
    rw [List.foldl_cons]
    exact (ih _ (fun p hp => hscan p (List.mem_cons_of_mem _ hp))).trans
      (applyOutputMapping_preserves iters i slot hd.1 hd.2 acc
        (hscan hd (List.mem_cons_self _ _)) hlast)

/-- `distributeOutputs` preserves accumulator position `slot` when no
output mapping scans into it and the iteration is not the known final
one. -/
theorem distributeOutputs_preserves (iters : Option Nat) (i slot : Nat)
    (vs : List Tensor) (mappings : List OutputMapping) (outputs : List Tensor)
    (hscan : ∀ m ∈ mappings, ∀ info, m.scan = some info → info.slot ≠ slot)
    (hlast : iters ≠ some (i + 1)) :
    (distributeOutputs iters i vs mappings outputs).1.getD slot Tensor.default =
      outputs.getD slot Tensor.default := by
  unfold distributeOutputs
  exact foldl_applyOutputMapping_preserves iters i slot (vs.zip mappings) (outputs, [])
    (fun p hp => hscan p.2 (List.of_mem_zip hp).2) hlast

/-- A successful loop run only appends to the instrumentation trace. -/
theorem evalLoop_trace_extends (op : LirScanOpParams) (inputs : List Tensor)
    (iters : Option Nat) :
    ∀ (fuel i : Nat) (st r : LoopState),
      evalLoop op inputs iters fuel i st = .ok r →
      ∃ t : List Nat, r.trace = st.trace ++ t := by
  intro fuel
  induction fuel with
  | zero => intro i st r h; cases h
  | succ fuel ih =>
    intro i st r h
    simp only [evalLoop] at h
    split at h
    · cases h
    · obtain ⟨t, ht⟩ := ih (i + 1) _ r h
      exact ⟨t, ht⟩
    · cases h
      exact ⟨[], (List.append_nil _).symm⟩
    · split at h
      · cases h
      · obtain ⟨t, ht⟩ := ih (i + 1) _ r h
        refine ⟨i :: t, ?_⟩
        rw [ht]
        simp

/-- Across a successful loop run in which no executed pass is the known
final iteration, an accumulator position no output mapping scans into
keeps its initial value. -/
theorem evalLoop_outputs_preserved (op : LirScanOpParams) (inputs : List Tensor)
    (iters : Option Nat) (slot : Nat)
    (hscan : ∀ m ∈ op.output_mapping, ∀ info, m.scan = some info → info.slot ≠ slot) :
    ∀ (fuel i : Nat) (st r : LoopState),
      evalLoop op inputs iters fuel i st = .ok r →
      (∀ j ∈ r.trace, iters ≠ some (j + 1)) →
      r.outputs.getD slot Tensor.default = st.outputs.getD slot Tensor.default := by
  intro fuel
  induction fuel with
  | zero => intro i st r h; cases h
  | succ fuel ih =>
    intro i st r h htrace
    simp only [evalLoop] at h
    split at h
    · cases h
    · exact ih (i + 1) { st with position := st.position + 1 } r h htrace
    · cases h; rfl
    · split at h
      · cases h
      · have hmem : i ∈ r.trace := by
          obtain ⟨t, ht⟩ := evalLoop_trace_extends op inputs iters fuel (i + 1) _ r h
          rw [ht]
          simp
        have hlast : iters ≠ some (i + 1) := htrace i hmem
        exact (ih (i + 1) _ r h htrace).trans
          (distributeOutputs_preserves iters i slot _ op.output_mapping
            st.outputs hscan hlast)

/-- C9: a last-value output slot that no mapping scans into is written
only during the executed iteration whose index plus one equals the known
bound; if no executed pass is that final iteration — the boolean
condition exits first, or the bound is unknown and hence never reached —
the slot still holds the default placeholder allocated before the loop,
never a body output. -/
theorem c9_last_value_placeholder (fuel : Nat) (s : State) (inputs : List Tensor)
    (iters : Option Nat) (slot : Nat) (res : State × List Tensor × List Nat)
    (hiters : computeIters s.op inputs = .ok iters)
    (heval : State.eval fuel s inputs = .ok res)
    (htrace : ∀ j ∈ res.2.2, iters ≠ some (j + 1))
    (hscan : ∀ m ∈ s.op.output_mapping, ∀ info, m.scan = some info → info.slot ≠ slot)
    (halloc : (allocOutputs s.op iters).getD slot Tensor.default = Tensor.default) :
    res.2.1.getD slot Tensor.default = Tensor.default := by
  simp only [State.eval] at heval
  split at heval
  · next e hc =>
    rw [hiters] at hc
    cases hc
  · next it hc =>
    rw [hiters] at hc
    cases hc
    split at heval
    · cases heval
    · next st hloop =>
      cases heval
      exact (evalLoop_outputs_preserved s.op inputs iters slot hscan fuel 0 _ st
        hloop htrace).trans halloc

/-- A condition-only driver: one boolean hidden state from input 0, fed
back by the body and exposed as last value at outer slot 0; no scan
entry and no trip count, so the iteration bound is unknown. -/
def opC : LirScanOpParams :=
  { skip := 0
    plan := { outputShapes := [[]], run := fun _ => .ok [tensor0Bool true] }
    input_mapping := [.state (.fromInput 0)]
    output_mapping := [{ state := true, last_value_slot := some 0 }]
    exit_condition := { condition_from_state := some 0, trip_count_from_input := none } }

/-- A fresh driver state over `opC`. -/
def sC : State := { op := opC, position := 0, hidden_state := [], model_state := opC.plan }

/-- The result of running `sC` on an initially-false condition: the body
executes once (setting the condition true), the second pass exits, and
the last-value slot still holds the placeholder. -/
def c9res : State × List Tensor × List Nat :=
  ({ op := opC, position := 2, hidden_state := [tensor0Bool true],
     model_state := opC.plan },
   [Tensor.default], [0])

/-- Witness for `c9_last_value_placeholder`: the condition-only run exits
through the boolean state, and outer output 0 is the default placeholder,
not the body output. -/
theorem c9_last_value_placeholder_witness :
    (allocOutputs opC none).getD 0 Tensor.default = Tensor.default ∧
    c9res.2.1.getD 0 Tensor.default = Tensor.default := by
  refine ⟨rfl, ?_⟩
  refine c9_last_value_placeholder 3 sC [tensor0Bool false] none 0 c9res rfl rfl ?_ ?_ rfl
  · intro j hj
    exact fun hc => Option.noConfusion hc
  · intro m hm info hinfo
    simp [sC, opC] at hm
    subst hm
    exact Option.noConfusion hinfo

end Spec2
